import Mathlib

set_option autoImplicit false

/-!
Verification of the toggl-fetch API client layer (`toggl_fetch/api.py`) and
the end-date store / date-range resolver (`toggl_fetch/fetch.py`).

Python exceptions are modelled by explicit result values: a classifier
returns `Option Exc` (`some e` = the Python code raises `e`, `none` = it
returns normally), and fallible store operations return `Except`.
-/

namespace TogglFetch

/-- Result of `response.json()` when decoding succeeds.  Only the parts the
client code inspects are tracked: a JSON array of strings (joined by the
metadata surface on status 404), an object carrying a structured
`error` member with `code`/`message`/`tip` fields, or any other JSON value
that has no `error` member. -/
inductive JsonBody where
  | arr (xs : List String)
  | objWithError (code message tip : String)
  | objNoError
  deriving Repr, DecidableEq

/-- The exceptions the API layer can raise or let escape: the `APIError`
hierarchy defined in api.py plus the `requests` exceptions it interacts
with.  `httpError` is `requests.exceptions.HTTPError` as raised by
`Response.raise_for_status`; in Python it is a `RequestException`, not a
member of the module's own `APIError` hierarchy.  `typeError` is the
`TypeError` that `data["error"]` raises when `data` is a list. -/
inductive Exc where
  | apiError (message : String)
  | authenticationError (message : String)
  | rateLimitingError (message : String)
  | httpError (status : Nat)
  | jsonDecodeError
  | typeError
  | connectionError
  | timeoutError
  deriving Repr, DecidableEq

/-- Exactly the `except (RateLimitingError, requests.exceptions.ConnectionError,
requests.exceptions.Timeout)` clause of `_APIBase._do_get` (api.py line 71):
which exceptions the retry loop catches.  `AuthenticationError` and plain
`APIError` instances are not listed there, and `HTTPError` is a sibling of
`ConnectionError`/`Timeout`, so none of those are caught. -/
def Exc.caughtByRetry : Exc → Bool
  | .rateLimitingError _ => true
  | .connectionError => true
  | .timeoutError => true
  | _ => false

/-- Is the raised exception exactly the generic `APIError` class (not one of
its subclasses, not a `requests` exception)? -/
def Exc.isApiError : Exc → Bool
  | .apiError _ => true
  | _ => false

/-- An HTTP response as the classifiers see it: the status code, the result
of `response.json()` (`none` when the body is not valid JSON, in which case
`.json()` raises `json.JSONDecodeError`), the raw bytes for
`response.content`, and whether a `warning` header is present (it is only
logged by the reporting surface, never inspected for control flow). -/
structure HttpResponse where
  status_code : Nat
  json : Option JsonBody
  content : String
  warning_header : Bool
  deriving Repr, DecidableEq

/-- `requests.models.Response.raise_for_status`: raises
`requests.exceptions.HTTPError` for 4xx client errors and 5xx server
errors, and returns normally for any other status code. -/
def raise_for_status (r : HttpResponse) : Option Exc :=
  if 400 ≤ r.status_code ∧ r.status_code < 600 then some (.httpError r.status_code)
  else none

/-- `"; ".join(data)`: joins an array's string elements; joining an object
iterates over its keys (only the modelled `error` key is tracked). -/
def JsonBody.joinedBySemicolon : JsonBody → String
  | .arr xs => String.intercalate "; " xs
  | .objWithError _ _ _ => "error"
  | .objNoError => ""

/-- `Toggl._check_error` (metadata surface, api.py lines 88-99): 404 raises
`APIError` built by joining the JSON body, 403 raises
`AuthenticationError`, 429 raises `RateLimitingError`, and every other
status goes through `response.raise_for_status()`. -/
def Toggl.check_error (r : HttpResponse) : Option Exc :=
  if r.status_code = 404 then
    match r.json with
    | none => some .jsonDecodeError
    | some b => some (.apiError b.joinedBySemicolon)
  else if r.status_code = 403 then some (.authenticationError "Invalid API token")
  else if r.status_code = 429 then some (.rateLimitingError "Request limit reached")
  else raise_for_status r

/-- `TogglReports._check_error` (reporting surface, api.py lines 120-147):
the warning header is only logged; 429 raises `RateLimitingError`; any
status below 400 returns immediately; otherwise the body is decoded
(decoding failure yields an empty dict), and if an `error` member is
present an `APIError` is raised from its `code`/`message`/`tip` fields
(`data["error"]` on a list raises `TypeError`), else
`response.raise_for_status()` runs. -/
def TogglReports.check_error (r : HttpResponse) : Option Exc :=
  if r.status_code = 429 then some (.rateLimitingError "Request limit reached")
  else if r.status_code < 400 then none
  else
    match r.json with
    | some (.objWithError code message tip) =>
        some (.apiError ("Error #" ++ code ++ ": " ++ message ++ " - " ++ tip))
    | some (.arr xs) =>
        if xs.contains "error" then some .typeError else raise_for_status r
    | some .objNoError => raise_for_status r
    | none => raise_for_status r

/-- `"error" not in data` after the body-decoding step of the reporting
classifier, where a decoding failure leaves `data = {}`. -/
def noErrorMember : Option JsonBody → Bool
  | none => true
  | some (.objWithError _ _ _) => false
  | some (.arr xs) => !(xs.contains "error")
  | some .objNoError => true

/-- What `self._session.get(...)` yields on one attempt: a response, or a
raised `requests` connection error or timeout. -/
inductive TransportResult where
  | response (r : HttpResponse)
  | connError
  | timedOut
  deriving Repr, DecidableEq

/-- The value a successful `_do_get` attempt returns: `resp.json()` when
`decode_json` is set, else `resp.content`. -/
inductive RespValue where
  | json (b : JsonBody)
  | raw (content : String)
  deriving Repr, DecidableEq

/-- The outcome of the body of one `_do_get` loop iteration, before the
`except` clause is considered. -/
inductive AttemptOutcome where
  | ok (v : RespValue)
  | exc (e : Exc)
  deriving Repr, DecidableEq

/-- One attempt of `_do_get` (api.py lines 64-70): perform the GET, run the
surface's `_check_error`, then decode the body (`resp.json()` raises
`json.JSONDecodeError` on an undecodable body). -/
def attemptOnce (check : HttpResponse → Option Exc) (decode_json : Bool)
    (transport : Nat → TransportResult) (attempt : Nat) : AttemptOutcome :=
  match transport attempt with
  | .connError => .exc .connectionError
  | .timedOut => .exc .timeoutError
  | .response r =>
    match check r with
    | some e => .exc e
    | none =>
      if decode_json then
        match r.json with
        | some b => .ok (.json b)
        | none => .exc .jsonDecodeError
      else .ok (.raw r.content)

/-- The result of `_do_get` as seen by its caller: a returned value, a
raised exception, or the implicit `None` returned when the loop body never
runs. -/
inductive DoGetResult where
  | value (v : RespValue)
  | raised (e : Exc)
  | noneValue
  deriving Repr, DecidableEq

/-- The final result of an attempt that terminates the loop. -/
def AttemptOutcome.final : AttemptOutcome → DoGetResult
  | .ok v => .value v
  | .exc e => .raised e

/-- A `_do_get` run together with its observable side effects: how many
HTTP attempts were made and how many fixed 1-second `time.sleep(1)` calls
were performed. -/
structure DoGetTrace where
  result : DoGetResult
  tries : Nat
  sleeps : Nat
  deriving Repr, DecidableEq

/-- The `for attempt in range(1, attempts + 1)` loop of `_do_get`
(api.py lines 62-75), iterating over the remaining attempt numbers.
A caught exception on a non-final attempt (`attempt != attempts`) sleeps
one second and continues; on the final attempt it is re-raised; an
uncaught exception propagates at once. -/
def do_get_loop (step : Nat → AttemptOutcome) (attempts : Nat) :
    List Nat → DoGetTrace
  | [] => ⟨.noneValue, 0, 0⟩
  | a :: rest =>
    match step a with
    | .ok v => ⟨.value v, 1, 0⟩
    | .exc e =>
      if e.caughtByRetry = true then
        if a = attempts then ⟨.raised e, 1, 0⟩
        else
          let t := do_get_loop step attempts rest
          ⟨t.result, t.tries + 1, t.sleeps + 1⟩
      else ⟨.raised e, 1, 0⟩

/-- `_APIBase._do_get` (api.py lines 61-75).  `attempts` is a Python `int`;
`range(1, attempts + 1)` is empty when `attempts ≤ 0`, in which case the
loop never runs and the function falls off the end, returning `None`. -/
def do_get (check : HttpResponse → Option Exc) (decode_json : Bool)
    (transport : Nat → TransportResult) (attempts : Int) : DoGetTrace :=
  do_get_loop (attemptOnce check decode_json transport) attempts.toNat
    (List.range' 1 attempts.toNat)

/-! ### Datetimes (fetch.py)

A timezone-aware CPython `datetime.datetime` is modelled by its calendar
and clock fields plus its UTC offset in minutes (`none` for a naive
value); dateutil's fixed-offset `tzoffset` carries exactly that
information, and `dateutil.tz.gettz()` is observed through the offset it
assigns to the instant at hand. -/

structure DateTime where
  year : Nat
  month : Nat
  day : Nat
  hour : Nat
  minute : Nat
  second : Nat
  microsecond : Nat
  tzMinutes : Option Int
  deriving Repr, DecidableEq

/-- The invariants CPython's `datetime` constructor enforces on its
fields (`MINYEAR = 1`, `MAXYEAR = 9999`, the usual clock ranges, and a
strict ±24 h bound on UTC offsets). -/
def DateTime.Valid (d : DateTime) : Prop :=
  0 < d.year ∧ d.year ≤ 9999 ∧ 0 < d.month ∧ d.month ≤ 12 ∧ 0 < d.day ∧ d.day ≤ 31 ∧
    d.hour ≤ 23 ∧ d.minute ≤ 59 ∧ d.second ≤ 59 ∧ d.microsecond ≤ 999999 ∧
    d.tzMinutes.all (fun o => decide (o.natAbs < 1440)) = true

/-- The decimal digit character for `n < 10`. -/
def digitChar (n : Nat) : Char := Char.ofNat (48 + n)

/-- Fixed-width two-digit decimal rendering (`"%02d"`). -/
def render2 (n : Nat) : List Char := [digitChar (n / 10), digitChar (n % 10)]

/-- Fixed-width four-digit decimal rendering (`"%04d"`). -/
def render4 (n : Nat) : List Char :=
  [digitChar (n / 1000), digitChar (n / 100 % 10), digitChar (n / 10 % 10), digitChar (n % 10)]

/-- Fixed-width six-digit decimal rendering (`"%06d"`). -/
def render6 (n : Nat) : List Char :=
  [digitChar (n / 100000), digitChar (n / 10000 % 10), digitChar (n / 1000 % 10),
    digitChar (n / 100 % 10), digitChar (n / 10 % 10), digitChar (n % 10)]

/-- The `±HH:MM` suffix `datetime.isoformat` emits for an aware value. -/
def tzOffsetChars (o : Int) : List Char :=
  (if o < 0 then '-' else '+')
    :: (render2 (o.natAbs / 60) ++ ':' :: render2 (o.natAbs % 60))

/-- `datetime.isoformat()` as a character list:
`YYYY-MM-DDTHH:MM:SS[.ffffff][±HH:MM]`, where the fractional part is
omitted when the microsecond field is zero and the offset is omitted for
naive values. -/
def DateTime.isoformatChars (d : DateTime) : List Char :=
  render4 d.year ++ '-' :: render2 d.month ++ '-' :: render2 d.day
    ++ 'T' :: render2 d.hour ++ ':' :: render2 d.minute ++ ':' :: render2 d.second
    ++ (if d.microsecond = 0 then [] else '.' :: render6 d.microsecond)
    ++ (match d.tzMinutes with
        | none => []
        | some o => tzOffsetChars o)

/-- `datetime.isoformat()`, the string `set_last_end_date` stores. -/
def DateTime.isoformat (d : DateTime) : String := String.mk d.isoformatChars

/-- The numeric value of a decimal digit character, or `none`. -/
def charDigit (c : Char) : Option Nat :=
  if c.isDigit then some (c.toNat - 48) else none

/-- Parse exactly two decimal digits. -/
def parse2 (a b : Char) : Option Nat := do
  let x ← charDigit a
  let y ← charDigit b
  pure (10 * x + y)

/-- Parse exactly four decimal digits. -/
def parse4 (a b c d : Char) : Option Nat := do
  let x ← charDigit a
  let y ← charDigit b
  let z ← charDigit c
  let w ← charDigit d
  pure (1000 * x + 100 * y + 10 * z + w)

/-- Parse exactly six decimal digits. -/
def parse6 (a b c d e f : Char) : Option Nat := do
  let x ← charDigit a
  let y ← charDigit b
  let z ← charDigit c
  let w ← charDigit d
  let u ← charDigit e
  let v ← charDigit f
  pure (100000 * x + 10000 * y + 1000 * z + 100 * w + 10 * u + v)

/-- Parse the optional `.ffffff` fractional-second part, returning the
microsecond count and the remaining input. -/
def parseFrac : List Char → Option (Nat × List Char)
  | [] => some (0, [])
  | c :: rest =>
    if c = '.' then
      match rest with
      | u1 :: u2 :: u3 :: u4 :: u5 :: u6 :: rest2 =>
        match parse6 u1 u2 u3 u4 u5 u6 with
        | some n => some (n, rest2)
        | none => none
      | _ => none
    else some (0, c :: rest)

/-- Parse the optional trailing `±HH:MM` UTC offset into minutes. -/
def parseTzPart : List Char → Option (Option Int)
  | [] => some none
  | s :: rest =>
    match rest with
    | [h1, h2, c, m1, m2] =>
      if (s = '+' ∨ s = '-') ∧ c = ':' then
        match parse2 h1 h2, parse2 m1 m2 with
        | some h, some m =>
          some (some (if s = '-' then -((h : Int) * 60 + m) else (h : Int) * 60 + m))
        | _, _ => none
      else none
    | _ => none

/-- `dateutil.parser.parse` restricted to the ISO-8601 grammar that
`datetime.isoformat` produces; `none` stands for the `ValueError` the
parser raises on input it cannot interpret. -/
def parseIsoChars : List Char → Option DateTime
  | y1 :: y2 :: y3 :: y4 :: p1 :: mo1 :: mo2 :: p2 :: da1 :: da2 :: p3
      :: h1 :: h2 :: p4 :: mi1 :: mi2 :: p5 :: s1 :: s2 :: rest =>
    if p1 = '-' ∧ p2 = '-' ∧ p3 = 'T' ∧ p4 = ':' ∧ p5 = ':' then
      match parse4 y1 y2 y3 y4, parse2 mo1 mo2, parse2 da1 da2,
          parse2 h1 h2, parse2 mi1 mi2, parse2 s1 s2 with
      | some y, some mo, some da, some h, some mi, some s =>
        match parseFrac rest with
        | some (us, rest2) =>
          match parseTzPart rest2 with
          | some tz => some ⟨y, mo, da, h, mi, s, us, tz⟩
          | none => none
        | none => none
      | _, _, _, _, _, _ => none
    else none
  | _ => none

/-- `dateutil.parser.parse` on a stored timestamp string. -/
def parseIso (s : String) : Option DateTime := parseIsoChars s.data

/-- `calendar.isleap`, the proleptic-Gregorian leap-year rule used by
CPython's date arithmetic. -/
def isLeapYear (y : Nat) : Bool := y % 4 = 0 && (y % 100 != 0 || y % 400 = 0)

/-- Length of a month in the proleptic Gregorian calendar. -/
def daysInMonth (y m : Nat) : Nat :=
  if m = 2 then (if isLeapYear y then 29 else 28)
  else if m = 4 ∨ m = 6 ∨ m = 9 ∨ m = 11 then 30
  else 31

/-- CPython `datetime + timedelta(days=1)`: the calendar date advances one
day; the clock fields and `tzinfo` are untouched because a whole-day delta
produces no carry into them.  `none` models the `OverflowError` that
datetime arithmetic raises when the resulting date would pass
`MAXYEAR = 9999` (the result ordinal is checked against the supported
calendar range). -/
def DateTime.nextDay (d : DateTime) : Option DateTime :=
  if d.day < daysInMonth d.year d.month then some { d with day := d.day + 1 }
  else if d.month < 12 then some { d with month := d.month + 1, day := 1 }
  else if d.year < 9999 then some { d with year := d.year + 1, month := 1, day := 1 }
  else none

/-- CPython `datetime - timedelta(days=1)`: the calendar date moves back
one day; clock fields and `tzinfo` are untouched.  `none` models the
`OverflowError` raised when the result would precede `MINYEAR = 1`. -/
def DateTime.prevDay (d : DateTime) : Option DateTime :=
  if 1 < d.day then some { d with day := d.day - 1 }
  else if 1 < d.month then
    some { d with month := d.month - 1, day := daysInMonth d.year (d.month - 1) }
  else if 1 < d.year then some { d with year := d.year - 1, month := 12, day := 31 }
  else none

/-- `d + timedelta(days=n)` for a nonnegative whole-day delta, one day at
a time; `none` is the `OverflowError` past `MAXYEAR`. -/
def DateTime.addDays : DateTime → Nat → Option DateTime
  | d, 0 => some d
  | d, n + 1 =>
    match d.nextDay with
    | some d' => d'.addDays n
    | none => none

/-- `d - timedelta(days=n)` for a nonnegative whole-day delta
(`timedelta(weeks=4)` is exactly 28 days); `none` is the `OverflowError`
before `MINYEAR`. -/
def DateTime.subDays : DateTime → Nat → Option DateTime
  | d, 0 => some d
  | d, n + 1 =>
    match d.prevDay with
    | some d' => d'.subDays n
    | none => none

/-! ### The end-date store (fetch.py) -/

/-- One candidate data directory from `BaseDirectory.load_data_paths`, as
`get_last_end_date` sees it: the `end_dates.json` file is absent
(`os.path.isfile` is false), or present but not valid JSON (`json.load`
raises), or it parses to a JSON object of string keys and string values
(the program only ever stores strings). -/
inductive DataFile where
  | missing
  | malformed
  | obj (entries : List (String × String))
  deriving Repr, DecidableEq

/-- The exceptions the store operations and the date-range resolver can
raise: `json.JSONDecodeError` from `json.load`, the `ValueError` that
`dateutil.parser.parse` raises on an unparseable timestamp, and the
`OverflowError` from datetime arithmetic leaving the supported calendar
range (`main` maps all of them to exit status 4). -/
inductive StoreExc where
  | jsonDecodeError
  | valueError
  | overflowError
  deriving Repr, DecidableEq

/-- Does this candidate file fail to contribute an entry for `key`
without raising: the file is absent, or parses to an object that lacks
the key? -/
def DataFile.lacksKey (key : String) : DataFile → Bool
  | .missing => true
  | .malformed => false
  | .obj entries => (entries.lookup key).isNone

/-- The search loop of `get_last_end_date` (fetch.py lines 119-134) for a
fixed string key, walking the ordered candidate list. -/
def get_last_end_date_go (parseDate : String → Option DateTime) (key : String) :
    List DataFile → Except StoreExc (Option DateTime)
  | [] => .ok none
  | .missing :: rest => get_last_end_date_go parseDate key rest
  | .malformed :: _ => .error .jsonDecodeError
  | .obj entries :: rest =>
    match entries.lookup key with
    | some v =>
      match parseDate v with
      | some d => .ok (some d)
      | none => .error .valueError
    | none => get_last_end_date_go parseDate key rest

/-- `get_last_end_date` (fetch.py lines 115-134), parameterised over the
ambient `BaseDirectory.load_data_paths` result and over the timestamp
parser.  The workspace id is first converted with `str()`. -/
def get_last_end_date (parseDate : String → Option DateTime) (dirs : List DataFile)
    (workspace_id : Nat) : Except StoreExc (Option DateTime) :=
  get_last_end_date_go parseDate (toString workspace_id) dirs

/-- Python `data[key] = value` on a JSON object decoded by `json.load`
(unique keys): replace the value in place if the key is present,
otherwise append the new pair. -/
def dictSet (entries : List (String × String)) (key value : String) :
    List (String × String) :=
  if (entries.lookup key).isSome then
    entries.map (fun kv => if kv.1 = key then (key, value) else kv)
  else entries ++ [(key, value)]

/-- `set_last_end_date` (fetch.py lines 138-158), parameterised over the
state of the single canonical writable data file: `none` when the file
does not exist (start from an empty mapping), `some none` when it exists
but is not valid JSON (`json.load` raises), `some (some entries)` when it
parses.  Returns the object written back to that same file. -/
def set_last_end_date (existing : Option (Option (List (String × String))))
    (workspace_id : Nat) (date : DateTime) : Except StoreExc (List (String × String)) :=
  let key := toString workspace_id
  match existing with
  | some none => .error .jsonDecodeError
  | some (some entries) => .ok (dictSet entries key date.isoformat)
  | none => .ok (dictSet [] key date.isoformat)

/-- `determine_end_date` (fetch.py lines 202-216; despite its name it
computes the report's start date): the stored end date plus one day when
one exists, else `datetime.now(dateutil.tz.gettz()) - timedelta(weeks=4)`;
`now` is that current local-timezone instant.  The function catches
nothing, so the store's exceptions and the `OverflowError` from the
`timedelta` arithmetic propagate to `main`. -/
def determine_end_date (parseDate : String → Option DateTime) (dirs : List DataFile)
    (now : DateTime) (workspace_id : Nat) : Except StoreExc DateTime :=
  match get_last_end_date parseDate dirs workspace_id with
  | .error e => .error e
  | .ok none =>
    match now.subDays 28 with
    | some d => .ok d
    | none => .error .overflowError
  | .ok (some d) =>
    match d.addDays 1 with
    | some d' => .ok d'
    | none => .error .overflowError

/-! ### Digit rendering and parsing lemmas -/

lemma charDigit_digitChar (n : Nat) (h : n < 10) : charDigit (digitChar n) = some n := by
  interval_cases n <;> decide

lemma parse2_render2 (n : Nat) (h : n < 100) :
    parse2 (digitChar (n / 10)) (digitChar (n % 10)) = some n := by
  have h1 : n / 10 < 10 := by omega
  have h2 : n % 10 < 10 := by omega
  simp only [parse2, charDigit_digitChar _ h1, charDigit_digitChar _ h2, Option.bind_some,
    Option.pure_def, Option.some_bind, Option.bind_eq_bind]
  exact congrArg some (by omega)

lemma parse4_render4 (n : Nat) (h : n < 10000) :
    parse4 (digitChar (n / 1000)) (digitChar (n / 100 % 10)) (digitChar (n / 10 % 10))
      (digitChar (n % 10)) = some n := by
  have h1 : n / 1000 < 10 := by omega
  have h2 : n / 100 % 10 < 10 := by omega
  have h3 : n / 10 % 10 < 10 := by omega
  have h4 : n % 10 < 10 := by omega
  simp only [parse4, charDigit_digitChar _ h1, charDigit_digitChar _ h2,
    charDigit_digitChar _ h3, charDigit_digitChar _ h4, Option.pure_def, Option.some_bind,
    Option.bind_eq_bind]
  exact congrArg some (by omega)

lemma parse6_render6 (n : Nat) (h : n < 1000000) :
    parse6 (digitChar (n / 100000)) (digitChar (n / 10000 % 10)) (digitChar (n / 1000 % 10))
      (digitChar (n / 100 % 10)) (digitChar (n / 10 % 10)) (digitChar (n % 10)) = some n := by
  have h1 : n / 100000 < 10 := by omega
  have h2 : n / 10000 % 10 < 10 := by omega
  have h3 : n / 1000 % 10 < 10 := by omega
  have h4 : n / 100 % 10 < 10 := by omega
  have h5 : n / 10 % 10 < 10 := by omega
  have h6 : n % 10 < 10 := by omega
  simp only [parse6, charDigit_digitChar _ h1, charDigit_digitChar _ h2,
    charDigit_digitChar _ h3, charDigit_digitChar _ h4, charDigit_digitChar _ h5,
    charDigit_digitChar _ h6, Option.pure_def, Option.some_bind, Option.bind_eq_bind]
  exact congrArg some (by omega)

lemma parseFrac_render6 (n : Nat) (h : n < 1000000) (rest : List Char) :
    parseFrac ('.' :: (render6 n ++ rest)) = some (n, rest) := by
  simp [render6, parseFrac, parse6_render6 n h]

lemma parseFrac_render6_nil (n : Nat) (h : n < 1000000) :
    parseFrac ('.' :: render6 n) = some (n, []) := by
  simpa using parseFrac_render6 n h []

lemma parseFrac_tz (o : Int) : parseFrac (tzOffsetChars o) = some (0, tzOffsetChars o) := by
  by_cases ho : o < 0 <;> simp [tzOffsetChars, ho, parseFrac, render2]

lemma parseTzPart_tzOffsetChars (o : Int) (h : o.natAbs < 1440) :
    parseTzPart (tzOffsetChars o) = some (some o) := by
  have h1 : o.natAbs / 60 < 100 := by omega
  have h2 : o.natAbs % 60 < 100 := by omega
  by_cases ho : o < 0
  · have e1 : ¬ (('-' : Char) = '+') := by decide
    simp only [tzOffsetChars, if_pos ho, render2, List.cons_append, List.nil_append,
      parseTzPart, parse2_render2 _ h1, parse2_render2 _ h2]
    simp [e1, -Int.natCast_natAbs]
    omega
  · have e2 : ¬ (('+' : Char) = '-') := by decide
    simp only [tzOffsetChars, if_neg ho, render2, List.cons_append, List.nil_append,
      parseTzPart, parse2_render2 _ h1, parse2_render2 _ h2]
    simp [e2, -Int.natCast_natAbs]
    omega

/-- Storing a datetime with `isoformat` and reading it back with the
parser recovers it exactly: the serialisation round trip loses nothing,
down to the microsecond and the timezone offset. -/
theorem parseIso_isoformat (d : DateTime) (h : d.Valid) : parseIso d.isoformat = some d := by
  obtain ⟨y, mo, da, hh, mi, ss, us, tz⟩ := d
  simp only [DateTime.Valid] at h
  obtain ⟨hy1, hy2, hmo1, hmo2, hda1, hda2, hhh, hmi, hss, hus, htz⟩ := h
  have hy : y < 10000 := by omega
  have hmo' : mo < 100 := by omega
  have hda' : da < 100 := by omega
  have hhh' : hh < 100 := by omega
  have hmi' : mi < 100 := by omega
  have hss' : ss < 100 := by omega
  have hus' : us < 1000000 := by omega
  show parseIsoChars (DateTime.isoformatChars ⟨y, mo, da, hh, mi, ss, us, tz⟩) = _
  rcases tz with _ | o
  · by_cases hus0 : us = 0
    · subst hus0
      simp [DateTime.isoformatChars, render4, render2, parseIsoChars,
        parse4_render4 _ hy, parse2_render2 _ hmo', parse2_render2 _ hda',
        parse2_render2 _ hhh', parse2_render2 _ hmi', parse2_render2 _ hss',
        parseFrac, parseTzPart]
    · simp [DateTime.isoformatChars, render4, render2, hus0, parseIsoChars,
        parse4_render4 _ hy, parse2_render2 _ hmo', parse2_render2 _ hda',
        parse2_render2 _ hhh', parse2_render2 _ hmi', parse2_render2 _ hss',
        parseFrac_render6 _ hus', parseFrac_render6_nil _ hus', parseTzPart]
  · have ho : o.natAbs < 1440 := by simpa using htz
    by_cases hus0 : us = 0
    · subst hus0
      simp [DateTime.isoformatChars, render4, render2, parseIsoChars,
        parse4_render4 _ hy, parse2_render2 _ hmo', parse2_render2 _ hda',
        parse2_render2 _ hhh', parse2_render2 _ hmi', parse2_render2 _ hss',
        parseFrac_tz, parseTzPart_tzOffsetChars _ ho]
    · simp [DateTime.isoformatChars, render4, render2, hus0, parseIsoChars,
        parse4_render4 _ hy, parse2_render2 _ hmo', parse2_render2 _ hda',
        parse2_render2 _ hhh', parse2_render2 _ hmi', parse2_render2 _ hss',
        parseFrac_render6 _ hus', parseTzPart_tzOffsetChars _ ho]

/-! ### Store lemmas -/

lemma lookup_map_replace (entries : List (String × String)) (key v k' : String)
    (h : k' ≠ key) :
    (entries.map (fun kv => if kv.1 = key then (key, v) else kv)).lookup k'
      = entries.lookup k' := by
  induction entries with
  | nil => rfl
  | cons kv rest ih =>
    obtain ⟨a, b⟩ := kv
    by_cases ha : a = key
    · subst ha
      simp only [List.map_cons, if_true]
      rw [List.lookup_cons, List.lookup_cons, beq_eq_false_iff_ne.mpr h]
      exact ih
    · by_cases hk : k' = a
      · subst hk
        simp only [List.map_cons]
        rw [if_neg ha, List.lookup_cons, List.lookup_cons]
        simp
      · simp only [List.map_cons]
        rw [if_neg ha, List.lookup_cons, List.lookup_cons, beq_eq_false_iff_ne.mpr hk]
        exact ih

lemma lookup_append_single (entries : List (String × String)) (key v k' : String)
    (h : k' ≠ key) :
    (entries ++ [(key, v)]).lookup k' = entries.lookup k' := by
  induction entries with
  | nil =>
    simp only [List.nil_append]
    rw [List.lookup_cons, beq_eq_false_iff_ne.mpr h]
  | cons kv rest ih =>
    obtain ⟨a, b⟩ := kv
    by_cases hk : k' = a
    · subst hk
      simp only [List.cons_append]
      rw [List.lookup_cons, List.lookup_cons]
      simp
    · simp only [List.cons_append]
      rw [List.lookup_cons, List.lookup_cons, beq_eq_false_iff_ne.mpr hk]
      exact ih

lemma lookup_dictSet_ne (entries : List (String × String)) (key v k' : String)
    (h : k' ≠ key) :
    (dictSet entries key v).lookup k' = entries.lookup k' := by
  unfold dictSet
  split
  · exact lookup_map_replace entries key v k' h
  · exact lookup_append_single entries key v k' h

lemma lookup_map_replace_self (entries : List (String × String)) (key v : String)
    (h : (entries.lookup key).isSome) :
    (entries.map (fun kv => if kv.1 = key then (key, v) else kv)).lookup key = some v := by
  induction entries with
  | nil => simp [List.lookup] at h
  | cons kv rest ih =>
    obtain ⟨a, b⟩ := kv
    by_cases ha : a = key
    · subst ha
      simp only [List.map_cons, if_true]
      rw [List.lookup_cons]
      simp
    · have hne : ¬ key = a := fun hh => ha hh.symm
      have h' : (rest.lookup key).isSome := by
        rw [List.lookup_cons, beq_eq_false_iff_ne.mpr hne] at h
        exact h
      simp only [List.map_cons]
      rw [if_neg ha, List.lookup_cons, beq_eq_false_iff_ne.mpr hne]
      exact ih h'

lemma lookup_append_single_self (entries : List (String × String)) (key v : String)
    (h : entries.lookup key = none) :
    (entries ++ [(key, v)]).lookup key = some v := by
  induction entries with
  | nil =>
    simp only [List.nil_append]
    rw [List.lookup_cons]
    simp
  | cons kv rest ih =>
    obtain ⟨a, b⟩ := kv
    by_cases hk : key = a
    · subst hk
      rw [List.lookup_cons] at h
      simp at h
    · have h' : rest.lookup key = none := by
        rw [List.lookup_cons, beq_eq_false_iff_ne.mpr hk] at h
        exact h
      simp only [List.cons_append]
      rw [List.lookup_cons, beq_eq_false_iff_ne.mpr hk]
      exact ih h'

lemma lookup_dictSet_self (entries : List (String × String)) (key v : String) :
    (dictSet entries key v).lookup key = some v := by
  unfold dictSet
  split
  case isTrue h => exact lookup_map_replace_self entries key v h
  case isFalse h =>
    exact lookup_append_single_self entries key v (by
      cases hl : entries.lookup key with
      | none => rfl
      | some w => exact absurd (by simp [hl]) h)

lemma get_go_skip (p : String → Option DateTime) (key : String)
    (dirs1 dirs2 : List DataFile) (h : ∀ df ∈ dirs1, df.lacksKey key = true) :
    get_last_end_date_go p key (dirs1 ++ dirs2) = get_last_end_date_go p key dirs2 := by
  induction dirs1 with
  | nil => rfl
  | cons df rest ih =>
    have hdf : df.lacksKey key = true := h df (by simp)
    have hrest : ∀ d ∈ rest, d.lacksKey key = true := fun d hd => h d (by simp [hd])
    cases df with
    | missing => simpa [get_last_end_date_go] using ih hrest
    | malformed => simp [DataFile.lacksKey] at hdf
    | obj entries =>
      have hl : entries.lookup key = none := by
        simpa [DataFile.lacksKey, Option.isNone_iff_eq_none] using hdf
      simpa [get_last_end_date_go, hl] using ih hrest

lemma get_go_none (p : String → Option DateTime) (key : String) (dirs : List DataFile)
    (h : ∀ df ∈ dirs, df.lacksKey key = true) :
    get_last_end_date_go p key dirs = .ok none := by
  have := get_go_skip p key dirs [] h
  simpa using this

/-! ### Retry-loop lemmas -/

lemma do_get_loop_tries_le (step : Nat → AttemptOutcome) (n : Nat) (l : List Nat) :
    (do_get_loop step n l).tries ≤ l.length := by
  induction l with
  | nil => simp [do_get_loop]
  | cons a rest ih =>
    simp only [do_get_loop, List.length_cons]
    cases step a with
    | ok v => simp
    | exc e =>
      dsimp only
      by_cases hc : e.caughtByRetry = true
      · rw [if_pos hc]
        by_cases ha : a = n
        · rw [if_pos ha]
          simp
        · rw [if_neg ha]
          simpa using ih
      · rw [if_neg hc]
        simp

lemma do_get_loop_sleeps (step : Nat → AttemptOutcome) (n : Nat) :
    ∀ (k s : Nat), 0 < k → s + k = n + 1 →
      (do_get_loop step n (List.range' s k)).sleeps + 1
        = (do_get_loop step n (List.range' s k)).tries := by
  intro k
  induction k with
  | zero => omega
  | succ k ih =>
    intro s h0 hsk
    rw [List.range'_succ]
    simp only [do_get_loop]
    cases step s with
    | ok v => rfl
    | exc e =>
      dsimp only
      by_cases hc : e.caughtByRetry = true
      · rw [if_pos hc]
        by_cases ha : s = n
        · rw [if_pos ha]
        · rw [if_neg ha]
          have hk : 0 < k := by omega
          have := ih (s + 1) hk (by omega)
          simpa using this
      · rw [if_neg hc]

/-- Running the loop over attempts `s, s+1, ..., n` (the `range(1, attempts+1)`
suffix starting at `s`): if the first `j` attempts fail with caught
(transient) exceptions and attempt `s + j` terminates the loop — by
succeeding, by raising an uncaught exception, or by being the final
attempt — then the loop result is that attempt's outcome after `j + 1`
tries and `j` sleeps. -/
lemma do_get_loop_run (step : Nat → AttemptOutcome) (n : Nat) :
    ∀ (j k s : Nat), j < k → s + k = n + 1 →
      (∀ i, i < j → ∃ e, step (s + i) = .exc e ∧ e.caughtByRetry = true) →
      (match step (s + j) with
       | .ok _ => True
       | .exc e => e.caughtByRetry = false ∨ s + j = n) →
      do_get_loop step n (List.range' s k) = ⟨(step (s + j)).final, j + 1, j⟩ := by
  intro j
  induction j with
  | zero =>
    intro k s hjk hsk _ hterm
    obtain ⟨k', rfl⟩ : ∃ k', k = k' + 1 := ⟨k - 1, by omega⟩
    rw [List.range'_succ]
    simp only [do_get_loop]
    rw [Nat.add_zero] at hterm ⊢
    cases hstep : step s with
    | ok v => simp [AttemptOutcome.final, hstep]
    | exc e =>
      rw [hstep] at hterm
      dsimp only
      dsimp only at hterm
      by_cases hc : e.caughtByRetry = true
      · rw [if_pos hc]
        have hs : s = n := by
          rcases hterm with hterm | hterm
          · rw [hc] at hterm
            cases hterm
          · exact hterm
        rw [if_pos hs]
        simp [AttemptOutcome.final, hstep]
      · rw [if_neg hc]
        simp [AttemptOutcome.final, hstep]
  | succ j ih =>
    intro k s hjk hsk hpre hterm
    obtain ⟨k', rfl⟩ : ∃ k', k = k' + 1 := ⟨k - 1, by omega⟩
    rw [List.range'_succ]
    simp only [do_get_loop]
    obtain ⟨e, he, hec⟩ := hpre 0 (by omega)
    rw [Nat.add_zero] at he
    rw [he]
    dsimp only
    rw [if_pos hec, if_neg (by omega : ¬ s = n)]
    have hpre' : ∀ i, i < j → ∃ e, step (s + 1 + i) = .exc e ∧ e.caughtByRetry = true := by
      intro i hi
      have := hpre (i + 1) (by omega)
      rwa [show s + (i + 1) = s + 1 + i by omega] at this
    have hterm' :
        (match step (s + 1 + j) with
         | .ok _ => True
         | .exc e => e.caughtByRetry = false ∨ s + 1 + j = n) := by
      rw [show s + 1 + j = s + (j + 1) by omega]
      exact hterm
    have := ih k' (s + 1) (by omega) (by omega) hpre' hterm'
    rw [show s + 1 + j = s + (j + 1) by omega] at this
    rw [this]

/-! ### Claims about the error classifiers -/

/-- C9: a response with status 429 raises `RateLimitingError` on both the
metadata surface and the reporting surface, regardless of the response
body's content. -/
theorem status_429_raises_rate_limiting (j : Option JsonBody) (c : String) (w : Bool) :
    Toggl.check_error ⟨429, j, c, w⟩ = some (.rateLimitingError "Request limit reached")
      ∧ TogglReports.check_error ⟨429, j, c, w⟩
        = some (.rateLimitingError "Request limit reached") := by
  constructor
  · simp [Toggl.check_error]
  · simp [TogglReports.check_error]

/-- C1 counterexample: a reporting-surface response with an
otherwise-successful-looking status (200) and a structured error body is
not classified as an error at all — `TogglReports._check_error` returns
normally, because the `status_code < 400` early return runs before the
body is ever inspected.  This contradicts the claim that such a response
raises `APIError`, and equally the claim that the classifier returns
without exception only when no structured error body is present. -/
theorem reports_success_status_ignores_error_body :
    TogglReports.check_error ⟨200, some (.objWithError "1" "msg" "tip"), "", false⟩ = none := by
  rfl

/-- C1 (amended): the reporting classifier returns without exception for
every status below 400, even when the body carries a structured error
object; the structured-error-body check applies only to statuses ≥ 400
other than 429, where it raises the generic `APIError` built from the
`code`/`message`/`tip` fields. -/
theorem reports_error_body_check_requires_error_status (r : HttpResponse) :
    (r.status_code < 400 → TogglReports.check_error r = none)
      ∧ (∀ code message tip, 400 ≤ r.status_code → r.status_code ≠ 429 →
          r.json = some (.objWithError code message tip) →
          TogglReports.check_error r
            = some (.apiError ("Error #" ++ code ++ ": " ++ message ++ " - " ++ tip))) := by
  constructor
  · intro h
    unfold TogglReports.check_error
    rw [if_neg (by omega), if_pos h]
  · intro code message tip h1 h2 hj
    unfold TogglReports.check_error
    rw [if_neg h2, if_neg (by omega), hj]

theorem reports_error_body_check_requires_error_status_witness :
    TogglReports.check_error ⟨500, some (.objWithError "1" "msg" "tip"), "", false⟩
      = some (.apiError ("Error #" ++ "1" ++ ": " ++ "msg" ++ " - " ++ "tip")) :=
  (reports_error_body_check_requires_error_status
      ⟨500, some (.objWithError "1" "msg" "tip"), "", false⟩).2
    "1" "msg" "tip" (by decide) (by decide) rfl

/-- C2 counterexample: a generic 500 with no structured error body raises
requests' `HTTPError` (via `raise_for_status`) on both surfaces — an
exception that is not the `APIError` class of the module's taxonomy — and
a status of 600, though ≥ 400, raises nothing at all because
`raise_for_status` only covers 4xx and 5xx. -/
theorem generic_status_raises_http_error_not_api_error :
    Toggl.check_error ⟨500, some .objNoError, "", false⟩ = some (.httpError 500)
      ∧ (Toggl.check_error ⟨500, some .objNoError, "", false⟩).elim false Exc.isApiError = false
      ∧ TogglReports.check_error ⟨500, some .objNoError, "", false⟩ = some (.httpError 500)
      ∧ (TogglReports.check_error ⟨500, some .objNoError, "", false⟩).elim false
          Exc.isApiError = false
      ∧ Toggl.check_error ⟨600, some .objNoError, "", false⟩ = none
      ∧ TogglReports.check_error ⟨600, some .objNoError, "", false⟩ = none := by
  decide

/-- C2 (amended): for every status in [400, 600) that is not specially
handled (metadata surface: 403, 404, 429; reporting surface: 429 or a
decoded body with an `error` member), the classifier raises a fatal error
that the retry loop does not catch — but that error is requests'
`HTTPError` from `raise_for_status`, not the taxonomy's generic
`APIError`; statuses ≥ 600 fall outside `raise_for_status` and raise
nothing. -/
theorem generic_status_raises_http_error (r : HttpResponse) :
    (400 ≤ r.status_code → r.status_code < 600 →
        r.status_code ≠ 403 → r.status_code ≠ 404 → r.status_code ≠ 429 →
        Toggl.check_error r = some (.httpError r.status_code))
      ∧ (400 ≤ r.status_code → r.status_code < 600 → r.status_code ≠ 429 →
          noErrorMember r.json = true →
          TogglReports.check_error r = some (.httpError r.status_code))
      ∧ (Exc.httpError r.status_code).caughtByRetry = false
      ∧ (Exc.httpError r.status_code).isApiError = false := by
  refine ⟨?_, ?_, rfl, rfl⟩
  · intro h1 h2 h403 h404 h429
    unfold Toggl.check_error
    rw [if_neg h404, if_neg h403, if_neg h429]
    unfold raise_for_status
    rw [if_pos ⟨h1, h2⟩]
  · intro h1 h2 h429 hbody
    unfold TogglReports.check_error
    rw [if_neg h429, if_neg (by omega)]
    cases hj : r.json with
    | none =>
      unfold raise_for_status
      rw [if_pos ⟨h1, h2⟩]
    | some b =>
      rw [hj] at hbody
      cases b with
      | arr xs =>
        have hxs : xs.contains "error" = false := by simpa [noErrorMember] using hbody
        dsimp only
        rw [if_neg (by simpa using hxs)]
        unfold raise_for_status
        rw [if_pos ⟨h1, h2⟩]
      | objWithError code message tip => simp [noErrorMember] at hbody
      | objNoError =>
        unfold raise_for_status
        rw [if_pos ⟨h1, h2⟩]

theorem generic_status_raises_http_error_witness :
    Toggl.check_error ⟨502, some .objNoError, "", false⟩ = some (.httpError 502)
      ∧ TogglReports.check_error ⟨502, none, "", false⟩ = some (.httpError 502) :=
  ⟨(generic_status_raises_http_error ⟨502, some .objNoError, "", false⟩).1
      (by decide) (by decide) (by decide) (by decide) (by decide),
   (generic_status_raises_http_error ⟨502, none, "", false⟩).2.1
      (by decide) (by decide) (by decide) rfl⟩

/-! ### Claims about the retrying request executor -/

/-- C3: with an attempt budget of at least 1, `_do_get` performs at most
`max_attempts` tries; every try except the terminating one was a caught
transient failure followed by one 1-second sleep (so sleeps = tries − 1);
if every attempt up to the last fails transiently and the final attempt
fails transiently with `e`, then `e` is re-raised after exactly
`max_attempts` tries and `max_attempts − 1` sleeps; and against a
transport failing transiently on attempts 1 and 2 and succeeding on
attempt 3 with budget 3, the successful value is returned after exactly 3
tries and 2 sleeps. -/
theorem do_get_retry_policy (check : HttpResponse → Option Exc) (dj : Bool)
    (transport : Nat → TransportResult) (attempts : Int) (hA : 1 ≤ attempts) :
    (do_get check dj transport attempts).tries ≤ attempts.toNat
      ∧ (do_get check dj transport attempts).sleeps + 1
          = (do_get check dj transport attempts).tries
      ∧ (∀ e : Exc, e.caughtByRetry = true →
          (∀ a, 1 ≤ a → a < attempts.toNat →
            ∃ e', attemptOnce check dj transport a = .exc e' ∧ e'.caughtByRetry = true) →
          attemptOnce check dj transport attempts.toNat = .exc e →
          do_get check dj transport attempts
            = ⟨.raised e, attempts.toNat, attempts.toNat - 1⟩)
      ∧ (∀ (tr2 : Nat → TransportResult) (e : Exc) (v : RespValue),
          e.caughtByRetry = true →
          attemptOnce check dj tr2 1 = .exc e →
          attemptOnce check dj tr2 2 = .exc e →
          attemptOnce check dj tr2 3 = .ok v →
          do_get check dj tr2 3 = ⟨.value v, 3, 2⟩) := by
  have hn : 1 ≤ attempts.toNat := by omega
  refine ⟨?_, ?_, ?_, ?_⟩
  · have := do_get_loop_tries_le (attemptOnce check dj transport) attempts.toNat
      (List.range' 1 attempts.toNat)
    unfold do_get
    simpa [List.length_range'] using this
  · exact do_get_loop_sleeps (attemptOnce check dj transport) attempts.toNat
      attempts.toNat 1 (by omega) (by omega)
  · intro e hec hpre hfinal
    have hpre' : ∀ i, i < attempts.toNat - 1 →
        ∃ e', attemptOnce check dj transport (1 + i) = .exc e'
          ∧ e'.caughtByRetry = true := by
      intro i hi
      exact hpre (1 + i) (by omega) (by omega)
    have hterm :
        (match attemptOnce check dj transport (1 + (attempts.toNat - 1)) with
         | .ok _ => True
         | .exc e => e.caughtByRetry = false ∨ 1 + (attempts.toNat - 1) = attempts.toNat) := by
      rw [show 1 + (attempts.toNat - 1) = attempts.toNat by omega, hfinal]
      exact Or.inr rfl
    have hrun := do_get_loop_run (attemptOnce check dj transport) attempts.toNat
      (attempts.toNat - 1) attempts.toNat 1 (by omega) (by omega) hpre' hterm
    rw [show 1 + (attempts.toNat - 1) = attempts.toNat by omega, hfinal] at hrun
    rw [show attempts.toNat - 1 + 1 = attempts.toNat by omega] at hrun
    unfold do_get
    exact hrun
  · intro tr2 e v hec ha1 ha2 ha3
    have hpre' : ∀ i, i < 2 →
        ∃ e', attemptOnce check dj tr2 (1 + i) = .exc e' ∧ e'.caughtByRetry = true := by
      intro i hi
      interval_cases i
      · exact ⟨e, ha1, hec⟩
      · exact ⟨e, ha2, hec⟩
    have hterm :
        (match attemptOnce check dj tr2 (1 + 2) with
         | .ok _ => True
         | .exc e => e.caughtByRetry = false ∨ 1 + 2 = 3) := by
      rw [show 1 + 2 = 3 from rfl, ha3]
      trivial
    have hrun := do_get_loop_run (attemptOnce check dj tr2) 3 2 3 1 (by omega) (by omega)
      hpre' hterm
    rw [show 1 + 2 = 3 from rfl, ha3] at hrun
    unfold do_get
    exact hrun

theorem do_get_retry_policy_witness :
    do_get TogglReports.check_error true
        (fun _ => .response ⟨429, some .objNoError, "", false⟩) 3
      = ⟨.raised (.rateLimitingError "Request limit reached"), 3, 2⟩ := by
  have h := (do_get_retry_policy TogglReports.check_error true
      (fun _ => .response ⟨429, some .objNoError, "", false⟩) 3 (by decide)).2.2.1
      (.rateLimitingError "Request limit reached") rfl
      (fun a _ _ => ⟨.rateLimitingError "Request limit reached", rfl, rfl⟩) rfl
  simpa using h

/-- C4: a non-transient failure — `AuthenticationError`, a generic
`APIError` that is not a `RateLimitingError`, or any other exception not
named in the `except` clause — raised on any attempt `k` that the loop
reaches propagates immediately: the run ends with exactly `k` tries, and
the `k − 1` sleeps all belong to the earlier transient failures, so no
sleep and no further attempt follows the non-transient failure. -/
theorem do_get_nontransient_propagates (check : HttpResponse → Option Exc) (dj : Bool)
    (transport : Nat → TransportResult) (attempts : Int) (k : Nat) (e : Exc)
    (hk1 : 1 ≤ k) (hk2 : (k : Int) ≤ attempts)
    (hpre : ∀ i, 1 ≤ i → i < k →
      ∃ e', attemptOnce check dj transport i = .exc e' ∧ e'.caughtByRetry = true)
    (hke : attemptOnce check dj transport k = .exc e)
    (hne : e.caughtByRetry = false) :
    do_get check dj transport attempts = ⟨.raised e, k, k - 1⟩ := by
  have hkn : k ≤ attempts.toNat := by omega
  have hpre' : ∀ i, i < k - 1 →
      ∃ e', attemptOnce check dj transport (1 + i) = .exc e' ∧ e'.caughtByRetry = true := by
    intro i hi
    exact hpre (1 + i) (by omega) (by omega)
  have hterm :
      (match attemptOnce check dj transport (1 + (k - 1)) with
       | .ok _ => True
       | .exc e => e.caughtByRetry = false ∨ 1 + (k - 1) = attempts.toNat) := by
    rw [show 1 + (k - 1) = k by omega, hke]
    exact Or.inl hne
  have hrun := do_get_loop_run (attemptOnce check dj transport) attempts.toNat
    (k - 1) attempts.toNat 1 (by omega) (by omega) hpre' hterm
  rw [show 1 + (k - 1) = k by omega, hke] at hrun
  rw [show k - 1 + 1 = k by omega] at hrun
  unfold do_get
  exact hrun

theorem do_get_nontransient_propagates_witness :
    do_get Toggl.check_error true (fun _ => .response ⟨403, none, "", false⟩) 3
      = ⟨.raised (.authenticationError "Invalid API token"), 1, 0⟩ := by
  have h := do_get_nontransient_propagates Toggl.check_error true
      (fun _ => .response ⟨403, none, "", false⟩) 3 1
      (.authenticationError "Invalid API token") (by decide) (by decide)
      (fun i h1 h2 => absurd (Nat.lt_of_lt_of_le h2 h1) (by omega))
      rfl rfl
  simpa using h

/-- C10: with an attempt budget of zero or less, `range(1, attempts + 1)`
is empty, so `_do_get` performs no HTTP request, raises nothing, and falls
off the end of the function returning Python's `None` — a value outside
the documented parsed-body/raw-bytes result set. -/
theorem do_get_zero_attempts_returns_none (check : HttpResponse → Option Exc) (dj : Bool)
    (transport : Nat → TransportResult) (attempts : Int) (h : attempts ≤ 0) :
    do_get check dj transport attempts = ⟨.noneValue, 0, 0⟩ := by
  unfold do_get
  rw [show attempts.toNat = 0 by omega]
  rfl

theorem do_get_zero_attempts_returns_none_witness :
    do_get Toggl.check_error true
        (fun _ => .response ⟨200, some .objNoError, "", false⟩) (-2)
      = ⟨.noneValue, 0, 0⟩ :=
  do_get_zero_attempts_returns_none Toggl.check_error true
    (fun _ => .response ⟨200, some .objNoError, "", false⟩) (-2) (by decide)

/-! ### Claims about the end-date store and the date-range resolver -/

lemma addDays_one (d : DateTime) : d.addDays 1 = d.nextDay := by
  cases h : d.nextDay <;> simp [DateTime.addDays, h]

lemma nextDay_some_clock_tz (d d' : DateTime) (h : d.nextDay = some d') :
    d'.hour = d.hour ∧ d'.minute = d.minute ∧ d'.second = d.second
      ∧ d'.microsecond = d.microsecond ∧ d'.tzMinutes = d.tzMinutes := by
  unfold DateTime.nextDay at h
  split_ifs at h <;>
    first
      | exact Option.noConfusion h
      | (injection h with h2
         subst h2
         exact ⟨rfl, rfl, rfl, rfl, rfl⟩)

lemma prevDay_some_tzMinutes (d d' : DateTime) (h : d.prevDay = some d') :
    d'.tzMinutes = d.tzMinutes := by
  unfold DateTime.prevDay at h
  split_ifs at h <;>
    first
      | exact Option.noConfusion h
      | (injection h with h2
         subst h2
         rfl)

lemma subDays_some_tzMinutes (n : Nat) :
    ∀ d d' : DateTime, d.subDays n = some d' → d'.tzMinutes = d.tzMinutes := by
  induction n with
  | zero =>
    intro d d' h
    simp only [DateTime.subDays, Option.some.injEq] at h
    subst h
    rfl
  | succ n ih =>
    intro d d' h
    simp only [DateTime.subDays] at h
    cases hp : d.prevDay with
    | none =>
      rw [hp] at h
      simp at h
    | some d1 =>
      rw [hp] at h
      exact (ih d1 d' h).trans (prevDay_some_tzMinutes d d1 hp)

/-- C5 counterexample: a stored end date of 9999-12-31 parses fine, but
adding one day to it passes CPython's `MAXYEAR = 9999`, so the program
raises `OverflowError` (which `main` maps to exit status 4) instead of
returning the stored end date plus one day as the claim states. -/
theorem determine_end_date_max_year_overflow :
    determine_end_date parseIso [DataFile.obj [("5", "9999-12-31T23:05:06+01:00")]]
        ⟨2020, 1, 1, 0, 0, 0, 0, some 120⟩ 5
      = .error .overflowError := by
  rfl

/-- C5 (amended): `determine_end_date` (the spec's `determine_start_date`)
returns the stored last end date plus one calendar day whenever the store
holds a record for the workspace and that date plus one day stays within
CPython's calendar range — with the stored value's time of day and
timezone offset untouched, as whole-day `timedelta` arithmetic only moves
the calendar date — and raises `OverflowError` for a stored 9999-12-31;
with no record it returns the current local-timezone instant minus 4
weeks (28 days), keeping that instant's timezone, again provided the
result does not fall off the calendar (before 0001-01-29). -/
theorem determine_end_date_spec (parseDate : String → Option DateTime)
    (dirs : List DataFile) (now : DateTime) (wsid : Nat) :
    (∀ d d', get_last_end_date parseDate dirs wsid = .ok (some d) →
      d.addDays 1 = some d' →
      determine_end_date parseDate dirs now wsid = .ok d'
        ∧ d'.hour = d.hour ∧ d'.minute = d.minute ∧ d'.second = d.second
        ∧ d'.microsecond = d.microsecond ∧ d'.tzMinutes = d.tzMinutes)
      ∧ (∀ d, get_last_end_date parseDate dirs wsid = .ok (some d) →
          d.addDays 1 = none →
          determine_end_date parseDate dirs now wsid = .error .overflowError)
      ∧ (∀ now', get_last_end_date parseDate dirs wsid = .ok none →
          now.subDays 28 = some now' →
          determine_end_date parseDate dirs now wsid = .ok now'
            ∧ now'.tzMinutes = now.tzMinutes)
      ∧ (get_last_end_date parseDate dirs wsid = .ok none →
          now.subDays 28 = none →
          determine_end_date parseDate dirs now wsid = .error .overflowError) := by
  refine ⟨?_, ?_, ?_, ?_⟩
  · intro d d' hd hadd
    have hnext : d.nextDay = some d' := by
      rw [← addDays_one]
      exact hadd
    obtain ⟨h1, h2, h3, h4, h5⟩ := nextDay_some_clock_tz d d' hnext
    refine ⟨?_, h1, h2, h3, h4, h5⟩
    unfold determine_end_date
    rw [hd]
    dsimp only
    rw [hadd]
  · intro d hd hadd
    unfold determine_end_date
    rw [hd]
    dsimp only
    rw [hadd]
  · intro now' hnone hsub
    refine ⟨?_, subDays_some_tzMinutes 28 now now' hsub⟩
    unfold determine_end_date
    rw [hnone]
    dsimp only
    rw [hsub]
  · intro hnone hsub
    unfold determine_end_date
    rw [hnone]
    dsimp only
    rw [hsub]

theorem determine_end_date_spec_witness :
    determine_end_date parseIso [DataFile.obj [("5", "2016-12-31T23:05:06+01:00")]]
        ⟨2020, 1, 1, 0, 0, 0, 0, some 120⟩ 5
      = .ok ⟨2017, 1, 1, 23, 5, 6, 0, some 60⟩ :=
  ((determine_end_date_spec parseIso
      [DataFile.obj [("5", "2016-12-31T23:05:06+01:00")]]
      ⟨2020, 1, 1, 0, 0, 0, 0, some 120⟩ 5).1
    ⟨2016, 12, 31, 23, 5, 6, 0, some 60⟩ ⟨2017, 1, 1, 23, 5, 6, 0, some 60⟩
    (by rfl) (by rfl)).1

/-- C6: the search walks the candidate directories in order, skips those
without a data file, stops at the first file whose object contains the
workspace id's string form and returns that entry parsed — whatever the
later candidates hold, so they are never consulted nor merged — and
returns `None` when no candidate file contains the key. -/
theorem get_last_end_date_search_spec (parseDate : String → Option DateTime) (wsid : Nat) :
    (∀ (dirs1 dirs2 : List DataFile) (entries : List (String × String)) (v : String),
      (∀ df ∈ dirs1, df.lacksKey (toString wsid) = true) →
      entries.lookup (toString wsid) = some v →
      get_last_end_date parseDate (dirs1 ++ DataFile.obj entries :: dirs2) wsid
        = match parseDate v with
          | some d => .ok (some d)
          | none => .error .valueError)
      ∧ (∀ dirs : List DataFile,
        (∀ df ∈ dirs, df.lacksKey (toString wsid) = true) →
        get_last_end_date parseDate dirs wsid = .ok none) := by
  constructor
  · intro dirs1 dirs2 entries v hskip hv
    unfold get_last_end_date
    rw [get_go_skip parseDate _ dirs1 _ hskip]
    cases hp : parseDate v <;> simp [get_last_end_date_go, hv, hp]
  · intro dirs h
    unfold get_last_end_date
    exact get_go_none parseDate _ dirs h

theorem get_last_end_date_search_spec_witness :
    get_last_end_date parseIso
        [DataFile.missing, DataFile.obj [("7", "2016-12-31T23:05:06+01:00")],
          DataFile.obj [("7", "1999-01-01T00:00:00+00:00")], DataFile.malformed] 7
      = .ok (some ⟨2016, 12, 31, 23, 5, 6, 0, some 60⟩) := by
  have h := (get_last_end_date_search_spec parseIso 7).1 [DataFile.missing]
      [DataFile.obj [("7", "1999-01-01T00:00:00+00:00")], DataFile.malformed]
      [("7", "2016-12-31T23:05:06+01:00")] "2016-12-31T23:05:06+01:00"
      (by decide) (by rfl)
  exact h.trans (by rfl)

/-- C7: storing a timezone-aware datetime with `set_last_end_date` and
reading it back with `get_last_end_date` against the file just written
recovers exactly the stored value — in particular equal to second
precision and with the same timezone offset. -/
theorem set_then_get_roundtrip (fileState : Option (List (String × String))) (wsid : Nat)
    (d : DateTime) (newEntries : List (String × String))
    (hset : set_last_end_date (fileState.map some) wsid d = .ok newEntries)
    (hd : d.Valid) (_haware : d.tzMinutes ≠ none) :
    get_last_end_date parseIso [DataFile.obj newEntries] wsid = .ok (some d) := by
  have hnew : newEntries = dictSet (fileState.getD []) (toString wsid) d.isoformat := by
    cases fileState with
    | none =>
      simpa [set_last_end_date] using hset.symm
    | some es =>
      simpa [set_last_end_date] using hset.symm
  subst hnew
  unfold get_last_end_date
  simp [get_last_end_date_go, lookup_dictSet_self, parseIso_isoformat d hd]

theorem set_then_get_roundtrip_witness :
    get_last_end_date parseIso
        [DataFile.obj [("7", "x"),
          ("5", DateTime.isoformat ⟨2016, 12, 31, 23, 5, 6, 123456, some (-330)⟩)]] 5
      = .ok (some ⟨2016, 12, 31, 23, 5, 6, 123456, some (-330)⟩) :=
  set_then_get_roundtrip (some [("7", "x")]) 5 ⟨2016, 12, 31, 23, 5, 6, 123456, some (-330)⟩
    [("7", "x"), ("5", DateTime.isoformat ⟨2016, 12, 31, 23, 5, 6, 123456, some (-330)⟩)]
    (by rfl) (by unfold DateTime.Valid; decide) (by decide)

/-- C8: rewriting the canonical data file with `set_last_end_date` leaves
every entry whose key differs from the workspace id's string form exactly
as it was, and sets (or overwrites) only the entry for the given
workspace id, to the ISO form of the date. -/
theorem set_last_end_date_frame (entries : List (String × String)) (wsid : Nat)
    (d : DateTime) (newEntries : List (String × String))
    (hset : set_last_end_date (some (some entries)) wsid d = .ok newEntries)
    (k' : String) (hk : k' ≠ toString wsid) :
    newEntries.lookup k' = entries.lookup k'
      ∧ newEntries.lookup (toString wsid) = some d.isoformat := by
  have hnew : newEntries = dictSet entries (toString wsid) d.isoformat := by
    simpa [set_last_end_date] using hset.symm
  subst hnew
  exact ⟨lookup_dictSet_ne entries _ _ k' hk, lookup_dictSet_self entries _ _⟩

theorem set_last_end_date_frame_witness :
    List.lookup "7" [("7", "x"),
        ("5", DateTime.isoformat ⟨2020, 2, 29, 1, 2, 3, 0, some 0⟩)]
      = List.lookup "7" [("7", "x")]
    ∧ List.lookup (toString 5) [("7", "x"),
        ("5", DateTime.isoformat ⟨2020, 2, 29, 1, 2, 3, 0, some 0⟩)]
      = some (DateTime.isoformat ⟨2020, 2, 29, 1, 2, 3, 0, some 0⟩) :=
  set_last_end_date_frame [("7", "x")] 5 ⟨2020, 2, 29, 1, 2, 3, 0, some 0⟩
    [("7", "x"), ("5", DateTime.isoformat ⟨2020, 2, 29, 1, 2, 3, 0, some 0⟩)]
    (by rfl) "7" (by decide)

end TogglFetch
